import Mathlib

/-!
# Verification of the testinator test-matrix runner

Shallow embedding of `src/main.rs` (a cargo test-matrix runner) and proofs
about it.  Pure computations (version comparison, matrix generation) are
embedded as Lean functions; the effectful parts (workspace materialization,
dependency pinning, test execution, the shutdown handler, the concurrency
scheduler) are embedded as event-trace producing functions over an explicit
environment describing the outcomes of external commands, or as small-step
transition relations.  `unwrap`/`assert!` panics are modelled by `Option`
results or an explicit "panicked" flag.
-/

namespace Testinator

/-! ## Semantic versions (model of the `semver` crate's `Version`)

The `semver` crate parses `MAJOR.MINOR.PATCH[-PRE][+BUILD]` where the three
numeric components have no leading zeros, pre-release/build identifiers are
nonempty, dot-separated, made of ASCII alphanumerics and hyphens, and
all-numeric pre-release identifiers have no leading zeros.  Its `Ord`
implements SemVer precedence (numeric triple, then pre-release where an
empty pre-release is greater), with build metadata as a final tiebreaker so
that the order is total and consistent with equality (approximated here by
lexicographic string comparison; no claim exercises build metadata). -/

/-- A pre-release identifier: numeric or alphanumeric. -/
inductive PreId
  | num (n : Nat)
  | alnum (s : String)
deriving DecidableEq

/-- A semantic version as represented by the `semver` crate. -/
structure Version where
  major : Nat
  minor : Nat
  patch : Nat
  pre : List PreId
  build : List String
deriving DecidableEq

/-- Split a character list at every occurrence of `c` (like `str::split`). -/
def splitOnChar (c : Char) : List Char → List (List Char)
  | [] => [[]]
  | x :: xs =>
    let r := splitOnChar c xs
    if x = c then [] :: r
    else
      match r with
      | [] => [[x]]
      | y :: ys => (x :: y) :: ys

/-- Split a character list at the first occurrence of `c`, if any. -/
def breakAtChar (c : Char) : List Char → List Char × Option (List Char)
  | [] => ([], none)
  | x :: xs =>
    if x = c then ([], some xs)
    else
      let r := breakAtChar c xs
      (x :: r.1, r.2)

/-- Decimal value of a digit string. -/
def digitsVal (acc : Nat) : List Char → Nat
  | [] => acc
  | c :: cs => digitsVal (acc * 10 + (c.toNat - '0'.toNat)) cs

/-- Parse a numeric identifier: nonempty, all digits, no leading zero. -/
def parseNumeric (l : List Char) : Option Nat :=
  match l with
  | [] => none
  | c :: cs =>
    if (c :: cs).all Char.isDigit then
      if c = '0' ∧ cs ≠ [] then none
      else some (digitsVal 0 (c :: cs))
    else none

/-- Characters allowed in pre-release/build identifiers. -/
def isIdChar (c : Char) : Bool := c.isDigit || c.isAlpha || c = '-'

/-- Parse a pre-release identifier. -/
def parsePreId (l : List Char) : Option PreId :=
  match l with
  | [] => none
  | _ =>
    if l.all Char.isDigit then (parseNumeric l).map .num
    else if l.all isIdChar then some (.alnum ⟨l⟩)
    else none

/-- Parse a build identifier (leading zeros allowed). -/
def parseBuildId (l : List Char) : Option String :=
  if l ≠ [] ∧ l.all isIdChar then some ⟨l⟩ else none

/-- Map a fallible function over a list, failing if any element fails
(models `collect::<Result<_,_>>` / a panicking iterator). -/
def mapOpt (f : α → Option β) : List α → Option (List β)
  | [] => some []
  | a :: l =>
    match f a, mapOpt f l with
    | some b, some bs => some (b :: bs)
    | _, _ => none

/-- Parse a semantic version string (model of `semver::Version::parse`). -/
def parseVersion (s : String) : Option Version :=
  let cb := breakAtChar '+' s.data
  let cp := breakAtChar '-' cb.1
  match splitOnChar '.' cp.1 with
  | [ma, mi, pa] =>
    match parseNumeric ma, parseNumeric mi, parseNumeric pa with
    | some major, some minor, some patch =>
      let preIds : Option (List PreId) :=
        match cp.2 with
        | none => some []
        | some p => mapOpt parsePreId (splitOnChar '.' p)
      let buildIds : Option (List String) :=
        match cb.2 with
        | none => some []
        | some b => mapOpt parseBuildId (splitOnChar '.' b)
      match preIds, buildIds with
      | some pre, some build => some ⟨major, minor, patch, pre, build⟩
      | _, _ => none
    | _, _, _ => none
  | _ => none

/-- Compare pre-release identifiers: numeric identifiers compare numerically
and are lower than alphanumeric ones; alphanumeric compare in ASCII order. -/
def cmpPreId : PreId → PreId → Ordering
  | .num a, .num b => compare a b
  | .num _, .alnum _ => .lt
  | .alnum _, .num _ => .gt
  | .alnum a, .alnum b => compare a b

/-- Lexicographic comparison of lists (a proper prefix is smaller). -/
def cmpLex (f : α → α → Ordering) : List α → List α → Ordering
  | [], [] => .eq
  | [], _ :: _ => .lt
  | _ :: _, [] => .gt
  | a :: as, b :: bs => (f a b).then (cmpLex f as bs)

/-- SemVer pre-release precedence: a version without a pre-release is
greater than any pre-release of the same numeric triple. -/
def cmpPre : List PreId → List PreId → Ordering
  | [], [] => .eq
  | [], _ :: _ => .gt
  | _ :: _, [] => .lt
  | a :: as, b :: bs => cmpLex cmpPreId (a :: as) (b :: bs)

/-- Build-metadata tiebreaker (approximated by string comparison). -/
def cmpBuild : List String → List String → Ordering := cmpLex compare

/-- The `semver` crate's total order on versions. -/
def cmpVersion (a b : Version) : Ordering :=
  (compare a.major b.major).then
    ((compare a.minor b.minor).then
      ((compare a.patch b.patch).then
        ((cmpPre a.pre b.pre).then (cmpBuild a.build b.build))))

/-- `a >= b` on versions (the comparison used by `versions_geq`). -/
def versionGe (a b : Version) : Bool :=
  match cmpVersion a b with
  | .lt => false
  | _ => true

/-! ## Configuration data model (`Config`, `Feature`, `RustVersion`, …) -/

/-- A feature flag with an optional minimum toolchain version. -/
structure Feature where
  name : String
  min_rust : Option String
deriving DecidableEq

/-- Pin a dependency to an exact version. -/
structure VersionPin where
  dependency : String
  version : Version
deriving DecidableEq

/-- A toolchain version to test, with its required dependency pins. -/
structure RustVersion where
  name : String
  requires_pinning : List VersionPin
deriving DecidableEq

/-- Fuzzing configuration. -/
structure Fuzzing where
  rel_path : String
  rust : String
  duration_s : Nat
deriving DecidableEq

/-- The run configuration. -/
structure Config where
  repo : String
  features : List Feature
  rust : List RustVersion
  par : Nat
  fuzzing : Option Fuzzing

/-! ## Version comparison (`versions_geq`)

`fn versions_geq(v1: &str, v2: &str, stable: &Version) -> bool`:
nightly is the highest version; `"stable"` is substituted by the resolved
stable version; all other identifiers are parsed with `.parse().unwrap()`.
The `unwrap` panic on a malformed version is modelled by `none`. -/

/-- Model of `versions_geq` from `src/main.rs`; `none` models the
`unwrap` panic on an unparsable version string. -/
def versions_geq (v1 v2 : String) (stable : Version) : Option Bool :=
  if v1 = "nightly" then some true
  else if v2 = "nightly" then some false
  else
    match (if v1 = "stable" then some stable else parseVersion v1),
          (if v2 = "stable" then some stable else parseVersion v2) with
    | some a, some b => some (versionGe a b)
    | _, _ => none

/-! ## Power set in itertools order

`itertools::powerset` enumerates all subsets in order of increasing size,
each size level being the `combinations` of that length in lexicographic
order of positions. -/

/-- All length-`k` combinations of a list, in itertools order. -/
def combinations : Nat → List α → List (List α)
  | 0, _ => [[]]
  | _ + 1, [] => []
  | k + 1, x :: xs => (combinations k xs).map (x :: ·) ++ combinations (k + 1) xs

/-- Model of `itertools::powerset`: all subsets in order of increasing
size. -/
def powerset (l : List α) : List (List α) :=
  (List.range (l.length + 1)).flatMap (fun k => combinations k l)

/-! ## Matrix generation (`gen_test_matrix`)

The Rust code builds a `HashMap<RustVersion, Vec<Vec<Feature>>>` by mapping
over `cfg.rust`; we keep the association list in declaration order.  The
`unwrap` inside the feature filter (on a malformed `min_rust`) is modelled
by `Option`. -/

/-- Eligibility of a feature under a toolchain (the filter closure in
`gen_test_matrix`). -/
def featureEligible (rust : RustVersion) (stable : Version) (f : Feature) :
    Option Bool :=
  match f.min_rust with
  | none => some true
  | some minRust => versions_geq rust.name minRust stable

/-- Filter with a fallible predicate, failing if the predicate fails
anywhere (models the panicking filter closure). -/
def filterOpt (p : α → Option Bool) : List α → Option (List α)
  | [] => some []
  | a :: l =>
    match p a, filterOpt p l with
    | some true, some bs => some (a :: bs)
    | some false, some bs => some bs
    | _, _ => none

/-- Model of `gen_test_matrix`: for each declared toolchain, the power set
of the features whose `min_rust` is absent or satisfied. The resolved
stable version is passed as a parameter (the code obtains it from
`get_stable_version`). -/
def gen_test_matrix (cfg : Config) (stable : Version) :
    Option (List (RustVersion × List (List Feature))) :=
  mapOpt
    (fun rust =>
      (filterOpt (featureEligible rust stable) cfg.features).map
        (fun elig => (rust, powerset elig)))
    cfg.rust

/-! ## Event traces for the effectful parts

`test_rust_version`, `run_test`, `pin_dependencies` and
`delete_paths_on_shutdown` perform filesystem operations and spawn external
commands.  They are embedded as functions producing the ordered list of
observable events, parameterized by an environment fixing the outcome of
each external operation.  A panic (`unwrap`/`assert!` failure) truncates
the trace and clears the "completed" flag. -/

/-- An observable action of the program, in execution order. -/
inductive Event
  | createTempDir (path : String)
  | registerPath (path : String)
  | copyProject (src dest : String)
  | removeLockfile (path : String)
  | extGenLockfile (rust : String)
  | extPinDep (rust dep : String) (ver : Version)
  | extRunTest (rust features : String)
  | reportSuccess (rust features : String)
  | reportFailure (rust features out err : String)
  | cancelTrigger
  | sleepMs (n : Nat)
  | rmRf (path : String)
  | exitProcess (code : Int)
deriving DecidableEq

/-- The captured outcome of an external command. -/
structure CmdResult where
  success : Bool
  stdout : String
  stderr : String

/-- Environment of one toolchain-version task: the fresh temp-dir path and
the outcomes of its filesystem operations and external commands. -/
structure TaskEnv where
  tmpPath : String
  copyOk : Bool
  lockExists : Bool
  removeOk : Bool
  genLockOk : Bool
  pinOk : VersionPin → Bool
  testResult : List Feature → CmdResult

/-- Model of `fs_extra::file::remove`: when the path does not exist the
function is a successful no-op; otherwise it delegates to
`std::fs::remove_file` (outcome `removeOk`). -/
def fileRemove (exists_ removeOk : Bool) : Bool :=
  if exists_ then removeOk else true

/-- The comma-joined `--features` argument (`feature_set.iter().map(|f| &f.name).join(",")`). -/
def featureStr (feature_set : List Feature) : String :=
  String.intercalate "," (feature_set.map Feature.name)

/-- Model of `run_test`: spawn `cargo +rust test --no-default-features
--features …` capturing both streams; report success with no dump on exit
status zero, otherwise report failure dumping the captured stdout and
stderr.  It never exits the process and never fails the task. -/
def run_test (rust : RustVersion) (feature_set : List Feature)
    (res : CmdResult) : List Event :=
  [Event.extRunTest rust.name (featureStr feature_set),
   if res.success then Event.reportSuccess rust.name (featureStr feature_set)
   else Event.reportFailure rust.name (featureStr feature_set) res.stdout res.stderr]

/-- The sequential `for feature_set in feature_sets` loop of
`test_rust_version`: every combination is run, regardless of outcomes. -/
def runTests (rust : RustVersion) (env : TaskEnv) :
    List (List Feature) → List Event
  | [] => []
  | fs :: rest => run_test rust fs (env.testResult fs) ++ runTests rust env rest

/-- The `for pin in rust.requires_pinning` loop of `pin_dependencies`:
each pin spawns `cargo update -p dep --precise ver` whose success is
`assert!`ed; a failing assert panics, truncating the loop. Returns the
events and whether the loop completed. -/
def pinEvents (rust : RustVersion) (ok : VersionPin → Bool) :
    List VersionPin → List Event × Bool
  | [] => ([], true)
  | pin :: rest =>
    if ok pin then
      let r := pinEvents rust ok rest
      (Event.extPinDep rust.name pin.dependency pin.version :: r.1, r.2)
    else ([Event.extPinDep rust.name pin.dependency pin.version], false)

/-- Model of `pin_dependencies`: first `cargo generate-lockfile` (success
`assert!`ed), then each pin in declared order. -/
def pin_dependencies (rust : RustVersion) (env : TaskEnv) :
    List Event × Bool :=
  if env.genLockOk then
    let r := pinEvents rust env.pinOk rust.requires_pinning
    (Event.extGenLockfile rust.name :: r.1, r.2)
  else ([Event.extGenLockfile rust.name], false)

/-- Last path component (model of `cfg.repo.iter().last()`). -/
def lastComponent (s : String) : String :=
  match ((splitOnChar '/' s.data).filter (· ≠ [])).getLast? with
  | some l => ⟨l⟩
  | none => ""

/-- Model of `test_rust_version`: create the temp dir, send its path on the
cleanup channel, copy the project (in a blocking task), remove the copied
`Cargo.lock` via `fs_extra::file::remove`, pin dependencies if the
toolchain declares any, then run every feature combination sequentially.
An `unwrap`/`assert!` failure panics the task: the trace stops there and
the completion flag is `false`.  A panic in the `spawn_blocking` closure
reaches this task through the `JoinError` `unwrap`. -/
def test_rust_version (cfg : Config) (rust : RustVersion)
    (feature_sets : List (List Feature)) (env : TaskEnv) :
    List Event × Bool :=
  let workdir := env.tmpPath ++ "/" ++ lastComponent cfg.repo
  let rest : List Event × Bool :=
    if env.copyOk = false then
      ([Event.copyProject cfg.repo env.tmpPath], false)
    else if fileRemove env.lockExists env.removeOk = false then
      ([Event.copyProject cfg.repo env.tmpPath,
        Event.removeLockfile (workdir ++ "/Cargo.lock")], false)
    else
      let setup := [Event.copyProject cfg.repo env.tmpPath,
                    Event.removeLockfile (workdir ++ "/Cargo.lock")]
      if rust.requires_pinning.isEmpty then
        (setup ++ runTests rust env feature_sets, true)
      else
        let pr := pin_dependencies rust env
        if pr.2 then (setup ++ pr.1 ++ runTests rust env feature_sets, true)
        else (setup ++ pr.1, false)
  (Event.createTempDir env.tmpPath :: Event.registerPath env.tmpPath :: rest.1,
   rest.2)

/-- Whether an event spawns an external command (pinning or testing). -/
def isExternalCmd : Event → Bool
  | .extGenLockfile _ => true
  | .extPinDep .. => true
  | .extRunTest .. => true
  | _ => false

/-- Whether an event is part of dependency pinning. -/
def isPinEvent : Event → Bool
  | .extGenLockfile _ => true
  | .extPinDep .. => true
  | _ => false

/-- Whether an event runs a test command. -/
def isTestEvent : Event → Bool
  | .extRunTest .. => true
  | _ => false

/-- Whether an event terminates the process. -/
def isExit : Event → Bool
  | .exitProcess _ => true
  | _ => false

/-- Scans a trace: the registration of the workspace path on the cleanup
channel occurs strictly before the project copy and before any external
command. -/
def registeredBeforeWork : List Event → Bool
  | [] => true
  | e :: tl =>
    match e with
    | .registerPath _ => true
    | .copyProject .. => false
    | _ => if isExternalCmd e then false else registeredBeforeWork tl

/-! ## Shutdown handler (`delete_paths_on_shutdown`)

A `select!` loop that either receives a workspace path (appending it to the
registry) or, on an interrupt signal, cancels the tripwire, sleeps 500 ms,
spawns `rm -rf` for every registered path in order, and exits with
status 0. -/

/-- One input to the shutdown handler's `select!` loop. -/
inductive LoopInput
  | recvPath (p : String)
  | ctrlC
deriving DecidableEq

/-- Model of `delete_paths_on_shutdown`, processing its inputs in order
with the registered paths as accumulator; the trace of the shutdown
sequence once an interrupt arrives, empty if none ever does. -/
def delete_paths_on_shutdown (paths : List String) :
    List LoopInput → List Event
  | [] => []
  | .recvPath p :: rest => delete_paths_on_shutdown (paths ++ [p]) rest
  | .ctrlC :: _ =>
    Event.cancelTrigger :: Event.sleepMs 500 ::
      (paths.map Event.rmRf ++ [Event.exitProcess 0])

/-! ## Main: concurrency and panic propagation

`main` drives one `test_rust_version` future per matrix entry through
`futures::StreamExt::for_each_concurrent(cfg.par, …)` inside the main
task.  The futures are polled within the main task (they are not spawned),
so a panic in any of them unwinds `main` itself: remaining tasks are
dropped and the fuzzing phase is never reached.  `for_each_concurrent`
starts a new future only while fewer than the limit are running, and the
`futures` crate interprets a limit of zero as no limit at all. -/

/-- Abstract scheduler state of `for_each_concurrent`: counts of matrix
entries not yet started, currently running, and finished. -/
structure SchedState where
  pending : Nat
  running : Nat
  done : Nat
deriving DecidableEq

/-- One scheduler transition of `for_each_concurrent` with limit `par`:
a new task starts only when fewer than `par` are running (a limit of zero
meaning no limit), and a running task may finish. -/
inductive SchedStep (par : Nat) : SchedState → SchedState → Prop
  | start (s : SchedState) : 0 < s.pending → (s.running < par ∨ par = 0) →
      SchedStep par s ⟨s.pending - 1, s.running + 1, s.done⟩
  | finish (s : SchedState) : 0 < s.running →
      SchedStep par s ⟨s.pending, s.running - 1, s.done + 1⟩

/-- Reachability under the scheduler's transitions. -/
inductive SchedReachable (par : Nat) (init : SchedState) : SchedState → Prop
  | refl : SchedReachable par init init
  | tail {s s' : SchedState} : SchedReachable par init s →
      SchedStep par s s' → SchedReachable par init s'

/-- Outcome of the whole run: `none` when the main task panics (some
toolchain task's panic propagated through `for_each_concurrent`), otherwise
`some b` where `b` tells whether the fuzzing phase ran. -/
def mainRuns (cfg : Config) (stable : Version)
    (envOf : RustVersion → TaskEnv) : Option Bool :=
  match gen_test_matrix cfg stable with
  | none => none
  | some matrix =>
    if matrix.any (fun e => !(test_rust_version cfg e.1 e.2 (envOf e.1)).2) then
      none
    else some cfg.fuzzing.isSome

/-! ## Correctness predicate and concrete scenario values -/

/-- Correctness of one generated matrix entry for toolchain `rust`: the
entry carries exactly the power set of the eligible features (the declared
features whose `min_rust` is absent or satisfied), hence `2 ^ k` feature
combinations all of which are sub-lists of the eligible list. -/
def MatrixEntryCorrect (cfg : Config) (stable : Version) (rust : RustVersion)
    (e : RustVersion × List (List Feature)) : Prop :=
  e.1 = rust ∧
  ∃ elig, filterOpt (featureEligible rust stable) cfg.features = some elig ∧
    e.2 = powerset elig ∧
    e.2.length = 2 ^ elig.length ∧
    ∀ s, s ∈ e.2 ↔ s.Sublist elig

/-- Scenario feature `A`: no minimum toolchain version. -/
def featA : Feature := ⟨"A", none⟩

/-- Scenario feature `B`: minimum toolchain version `1.50.0`. -/
def featB : Feature := ⟨"B", some "1.50.0"⟩

/-- Scenario toolchain `1.40.0`, no pins. -/
def rust140 : RustVersion := ⟨"1.40.0", []⟩

/-- Scenario toolchain `stable`, no pins. -/
def rustStable : RustVersion := ⟨"stable", []⟩

/-- The spec's matrix scenario configuration. -/
def scenarioCfg : Config :=
  { repo := "/repo/proj", features := [featA, featB],
    rust := [rust140, rustStable], par := 1, fuzzing := none }

/-- The resolved stable version `1.60.0`. -/
def stable160 : Version := ⟨1, 60, 0, [], []⟩

/-- A task environment in which every operation succeeds. -/
def envGood : TaskEnv :=
  { tmpPath := "/tmp/ws-ok", copyOk := true, lockExists := true,
    removeOk := true, genLockOk := true, pinOk := fun _ => true,
    testResult := fun _ => ⟨true, "", ""⟩ }

/-- An environment whose project copy contains no `Cargo.lock` (and whose
underlying file removal would fail if it were ever attempted). -/
def envNoLock : TaskEnv :=
  { envGood with
    tmpPath := "/tmp/ws-nolock"
    lockExists := false
    removeOk := false }

/-- An environment whose recursive project copy fails. -/
def envCopyFail : TaskEnv :=
  { envGood with tmpPath := "/tmp/ws-bad", copyOk := false }

/-- A two-toolchain configuration with a fuzzing phase configured. -/
def cfgTwo : Config :=
  { repo := "/repo/proj", features := [featA], rust := [rust140, rustStable],
    par := 2, fuzzing := some ⟨"fuzz", "nightly", 60⟩ }

/-- Environments for `cfgTwo`: the `1.40.0` task's copy fails, the other
task's operations all succeed. -/
def envOfTwo (r : RustVersion) : TaskEnv :=
  if r.name = "1.40.0" then envCopyFail else envGood

/-- A configuration whose concurrency limit is zero (the `futures` crate
treats this as "no limit"). -/
def cfgParZero : Config :=
  { repo := "/repo/proj", features := [], rust := [rust140], par := 0,
    fuzzing := none }

/-- Three declared toolchains with concurrency limit 2. -/
def cfgThree : Config :=
  { repo := "/repo/proj", features := [],
    rust := [rust140, rustStable, ⟨"nightly", []⟩], par := 2, fuzzing := none }

/-- A concrete dependency pin. -/
def pinSerde : VersionPin := ⟨"serde", ⟨1, 0, 100, [], []⟩⟩

/-- A toolchain declaring one dependency pin. -/
def rustPinned : RustVersion := ⟨"1.36.0", [pinSerde]⟩

/-- An environment where the existing `Cargo.lock` cannot be removed. -/
def envLockStuck : TaskEnv := { envGood with removeOk := false }

/-- An environment where every test command exits non-zero. -/
def envTestFail : TaskEnv :=
  { envGood with testResult := fun _ => ⟨false, "boom", "trace"⟩ }

/-! ## Helper lemmas -/

theorem mem_combinations {α : Type _} (l : List α) : ∀ (k : Nat) (s : List α),
    s ∈ combinations k l ↔ s.Sublist l ∧ s.length = k := by
  induction l with
  | nil =>
    intro k s
    cases k with
    | zero =>
      simp only [combinations, List.mem_singleton, List.sublist_nil]
      constructor
      · rintro rfl; exact ⟨rfl, rfl⟩
      · rintro ⟨rfl, _⟩; rfl
    | succ k =>
      simp only [combinations, List.not_mem_nil, false_iff, not_and,
        List.sublist_nil]
      rintro rfl; simp
  | cons x xs ih =>
    intro k s
    cases k with
    | zero =>
      simp only [combinations, List.mem_singleton]
      constructor
      · rintro rfl; exact ⟨List.nil_sublist _, rfl⟩
      · rintro ⟨_, h⟩; exact List.length_eq_zero.mp h
    | succ k =>
      simp only [combinations, List.mem_append, List.mem_map]
      rw [List.sublist_cons_iff]
      constructor
      · rintro (⟨t, ht, rfl⟩ | h)
        · rcases (ih k t).mp ht with ⟨hsub, hlen⟩
          exact ⟨Or.inr ⟨t, rfl, hsub⟩, by simp [hlen]⟩
        · rcases (ih (k + 1) s).mp h with ⟨hsub, hlen⟩
          exact ⟨Or.inl hsub, hlen⟩
      · rintro ⟨h | ⟨r, rfl, hr⟩, hlen⟩
        · exact Or.inr ((ih (k + 1) s).mpr ⟨h, hlen⟩)
        · exact Or.inl ⟨r, (ih k r).mpr ⟨hr, by simpa using hlen⟩, rfl⟩

theorem length_combinations {α : Type _} (l : List α) :
    ∀ k, (combinations k l).length = l.length.choose k := by
  induction l with
  | nil => intro k; cases k <;> simp [combinations]
  | cons x xs ih =>
    intro k
    cases k with
    | zero => simp [combinations]
    | succ k =>
      simp [combinations, ih, Nat.choose_succ_succ]

theorem sum_map_list_range (f : Nat → Nat) :
    ∀ m, ((List.range m).map f).sum = ∑ i in Finset.range m, f i := by
  intro m
  induction m with
  | zero => simp
  | succ m ih =>
    rw [List.range_succ]
    simp [ih, Finset.sum_range_succ]

theorem length_powerset {α : Type _} (l : List α) :
    (powerset l).length = 2 ^ l.length := by
  rw [powerset, List.length_flatMap]
  simp only [Function.comp_def, length_combinations]
  rw [sum_map_list_range, Nat.sum_range_choose]

theorem mem_powerset {α : Type _} (l s : List α) :
    s ∈ powerset l ↔ s.Sublist l := by
  rw [powerset, List.mem_flatMap]
  constructor
  · rintro ⟨k, _, hk⟩
    exact ((mem_combinations l k s).mp hk).1
  · intro h
    exact ⟨s.length, by simp [List.mem_range, Nat.lt_succ_of_le h.length_le],
      (mem_combinations l s.length s).mpr ⟨h, rfl⟩⟩

theorem mapOpt_forall₂ {α β : Type _} (f : α → Option β) :
    ∀ (l : List α) (m : List β), mapOpt f l = some m →
      List.Forall₂ (fun a b => f a = some b) l m := by
  intro l
  induction l with
  | nil =>
    intro m h
    simp only [mapOpt, Option.some_inj] at h
    subst h
    exact List.Forall₂.nil
  | cons a l ih =>
    intro m h
    simp only [mapOpt] at h
    cases hfa : f a with
    | none => rw [hfa] at h; cases h
    | some b =>
      cases hml : mapOpt f l with
      | none => rw [hfa, hml] at h; cases h
      | some bs =>
        rw [hfa, hml] at h
        simp only [Option.some_inj] at h
        subst h
        exact List.Forall₂.cons hfa (ih bs hml)

/-! ## Claim theorems -/

/-- C1: for every configuration and resolved stable version, the generated
test matrix maps each declared toolchain version, in order, to exactly the
power set (including the empty set, in itertools' deterministic
increasing-size order) of the features whose `min_rust` requirement is
absent or satisfied; the combination list has size `2 ^ k` for `k` eligible
features.  In the concrete scenario (features `A` with no minimum, `B` with
minimum `1.50.0`; toolchains `1.40.0` and `stable`; stable resolved to
`1.60.0`), toolchain `1.40.0` yields `[[], [A]]` and toolchain `stable`
yields `[[], [A], [B], [A, B]]`. -/
theorem gen_test_matrix_powerset :
    (∀ (cfg : Config) (stable : Version) (m : List (RustVersion × List (List Feature))),
      gen_test_matrix cfg stable = some m →
        List.Forall₂ (MatrixEntryCorrect cfg stable) cfg.rust m)
    ∧ gen_test_matrix scenarioCfg stable160 =
        some [(rust140, [[], [featA]]),
              (rustStable, [[], [featA], [featB], [featA, featB]])] := by
  constructor
  · intro cfg stable m h
    refine (mapOpt_forall₂ _ cfg.rust m h).imp ?_
    intro rust e he
    rcases Option.map_eq_some'.mp he with ⟨elig, hf, rfl⟩
    exact ⟨rfl, elig, hf, rfl, length_powerset elig, fun s => mem_powerset elig s⟩
  · decide

/-- Witness for C1: the general theorem applied to the concrete scenario. -/
theorem gen_test_matrix_powerset_witness :
    List.Forall₂ (MatrixEntryCorrect scenarioCfg stable160) scenarioCfg.rust
      [(rust140, [[], [featA]]),
       (rustStable, [[], [featA], [featB], [featA, featB]])] :=
  gen_test_matrix_powerset.1 scenarioCfg stable160
    [(rust140, [[], [featA]]),
     (rustStable, [[], [featA], [featB], [featA, featB]])]
    (by decide)

/-- C2: `versions_geq "nightly" b stable` is true for every `b`;
`versions_geq a "nightly" stable` is false for every `a ≠ "nightly"`;
`"stable"` is substituted with the resolved concrete version on either side
before comparing; and when neither side is symbolic and both parse,
`versions_geq` agrees with semantic-version ordering (`a >= b`). -/
theorem versions_geq_spec :
    ∀ (a b : String) (s va vb : Version),
      (versions_geq "nightly" b s = some true)
      ∧ (a ≠ "nightly" → versions_geq a "nightly" s = some false)
      ∧ (a ≠ "nightly" → b ≠ "nightly" → versions_geq a b s =
          (match (if a = "stable" then some s else parseVersion a),
                 (if b = "stable" then some s else parseVersion b) with
           | some x, some y => some (versionGe x y)
           | _, _ => none))
      ∧ (a ≠ "nightly" → b ≠ "nightly" → a ≠ "stable" → b ≠ "stable" →
          parseVersion a = some va → parseVersion b = some vb →
          versions_geq a b s = some (versionGe va vb)) := by
  intro a b s va vb
  refine ⟨rfl, fun ha => ?_, fun ha hb => ?_, fun ha hb has hbs hpa hpb => ?_⟩
  · simp [versions_geq, ha]
  · simp [versions_geq, ha, hb]
  · simp [versions_geq, ha, hb, has, hbs, hpa, hpb]

/-- Witness for C2: `1.2.3 >= 1.0.0` under resolved stable `1.60.0`. -/
theorem versions_geq_spec_witness :
    versions_geq "1.2.3" "1.0.0" stable160 = some true := by
  have h :=
    (versions_geq_spec "1.2.3" "1.0.0" stable160
      ⟨1, 2, 3, [], []⟩ ⟨1, 0, 0, [], []⟩).2.2.2
      (by decide) (by decide) (by decide) (by decide) (by decide) (by decide)
  rw [h]
  decide

/-- C7 fails as stated: a malformed identifier does not always abort the
comparison — when the other side is `"nightly"` the comparator
short-circuits and silently returns a boolean without parsing it. -/
theorem versions_geq_malformed_counterexample :
    versions_geq "nightly" "not-a-version" stable160 = some true
    ∧ parseVersion "not-a-version" = none := by
  constructor
  · rfl
  · decide

/-- C7 (amended): when neither argument is `"nightly"`, a malformed
non-`"stable"` identifier makes the comparison fail (the `unwrap` panic on
the parse error, fatal for the run); in that regime the comparator never
silently produces a boolean for a malformed identifier. -/
theorem versions_geq_malformed_fatal :
    ∀ (a b : String) (s : Version),
      (a ≠ "nightly" → b ≠ "nightly" → a ≠ "stable" →
        parseVersion a = none → versions_geq a b s = none)
      ∧ (a ≠ "nightly" → b ≠ "nightly" → b ≠ "stable" →
        parseVersion b = none → versions_geq a b s = none) := by
  intro a b s
  constructor
  · intro ha hb has hpa
    simp [versions_geq, ha, hb, has, hpa]
  · intro ha hb hbs hpb
    simp only [versions_geq, if_neg ha, if_neg hb, if_neg hbs, hpb]
    cases (if a = "stable" then some s else parseVersion a) <;> rfl

/-- Witness for C7 (amended): comparing a malformed identifier against a
concrete one panics. -/
theorem versions_geq_malformed_fatal_witness :
    versions_geq "garbage" "1.0.0" stable160 = none :=
  (versions_geq_malformed_fatal "garbage" "1.0.0" stable160).1
    (by decide) (by decide) (by decide) (by decide)

/-- C3: for every workspace created during a run, its path is sent on the
cleanup channel before the project copy into it begins, and therefore
before any external command (pinning or testing) is run against it: in
every trace of `test_rust_version`, the first registration, project-copy
or external-command event is the registration. -/
theorem workspace_registered_first :
    ∀ (cfg : Config) (rust : RustVersion) (feature_sets : List (List Feature))
      (env : TaskEnv),
      registeredBeforeWork (test_rust_version cfg rust feature_sets env).1 = true :=
  fun _ _ _ _ => rfl

/-- The shutdown loop with accumulated registry `acc`: any sequence of path
registrations followed by an interrupt yields the full shutdown trace. -/
theorem delete_paths_on_shutdown_acc (ps : List String) :
    ∀ (acc : List String) (rest : List LoopInput),
      delete_paths_on_shutdown acc
          (ps.map LoopInput.recvPath ++ LoopInput.ctrlC :: rest) =
        Event.cancelTrigger :: Event.sleepMs 500 ::
          ((acc ++ ps).map Event.rmRf ++ [Event.exitProcess 0]) := by
  induction ps with
  | nil => intro acc rest; simp [delete_paths_on_shutdown]
  | cons p ps ih =>
    intro acc rest
    simp only [List.map_cons, List.cons_append, delete_paths_on_shutdown,
      List.append_eq]
    rw [ih]
    simp

/-- C4: when an interrupt arrives, the shutdown handler cancels the
tripwire, waits the fixed 500 ms grace interval, forcibly recursively
deletes (`rm -rf`) every path registered so far in order, and exits with
status 0.  In particular with two workspaces registered both paths are
deleted and the exit status is 0. -/
theorem shutdown_deletes_registered :
    (∀ (ps : List String) (rest : List LoopInput),
      delete_paths_on_shutdown []
          (ps.map LoopInput.recvPath ++ LoopInput.ctrlC :: rest) =
        Event.cancelTrigger :: Event.sleepMs 500 ::
          (ps.map Event.rmRf ++ [Event.exitProcess 0]))
    ∧ delete_paths_on_shutdown []
        [LoopInput.recvPath "/tmp/ws-a", LoopInput.recvPath "/tmp/ws-b",
         LoopInput.ctrlC] =
        [Event.cancelTrigger, Event.sleepMs 500, Event.rmRf "/tmp/ws-a",
         Event.rmRf "/tmp/ws-b", Event.exitProcess 0] := by
  constructor
  · intro ps rest
    simpa using delete_paths_on_shutdown_acc ps [] rest
  · rfl

/-- The task completion flag as a function of the environment: the task
finishes without panicking iff the copy succeeds, the lock-file removal
succeeds, and pinning (when required) succeeds.  Test outcomes play no
role. -/
theorem test_flag_eq (cfg : Config) (rust : RustVersion)
    (fss : List (List Feature)) (env : TaskEnv) :
    (test_rust_version cfg rust fss env).2 =
      (env.copyOk && fileRemove env.lockExists env.removeOk &&
        (rust.requires_pinning.isEmpty || (pin_dependencies rust env).2)) := by
  simp only [test_rust_version]
  cases hc : env.copyOk
  · simp
  · cases hf : fileRemove env.lockExists env.removeOk
    · simp
    · cases hp : rust.requires_pinning.isEmpty
      · cases hpr : (pin_dependencies rust env).2 <;> simp [hpr]
      · simp

theorem runTests_flatMap (rust : RustVersion) (env : TaskEnv) :
    ∀ fss, runTests rust env fss =
      fss.flatMap (fun fs => run_test rust fs (env.testResult fs)) := by
  intro fss
  induction fss with
  | nil => rfl
  | cons fs rest ih => simp [runTests, ih]

theorem runTests_benign (rust : RustVersion) (env : TaskEnv) :
    ∀ fss e, e ∈ runTests rust env fss →
      isExit e = false ∧ isPinEvent e = false := by
  intro fss
  induction fss with
  | nil => intro e he; simp [runTests] at he
  | cons fs rest ih =>
    intro e he
    simp only [runTests, run_test, List.mem_append, List.mem_cons,
      List.not_mem_nil, or_false] at he
    rcases he with (rfl | rfl) | h
    · exact ⟨rfl, rfl⟩
    · cases hs : (env.testResult fs).success <;> simp [hs] <;> exact ⟨rfl, rfl⟩
    · exact ih e h

theorem pinEvents_shape (rust : RustVersion) (ok : VersionPin → Bool) :
    ∀ pins e, e ∈ (pinEvents rust ok pins).1 →
      ∃ d v, e = Event.extPinDep rust.name d v := by
  intro pins
  induction pins with
  | nil => intro e he; simp [pinEvents] at he
  | cons pin rest ih =>
    intro e he
    cases hok : ok pin
    · simp [pinEvents, hok] at he
      exact ⟨pin.dependency, pin.version, he⟩
    · simp only [pinEvents, hok, if_true] at he
      rcases List.mem_cons.mp he with rfl | h
      · exact ⟨pin.dependency, pin.version, rfl⟩
      · exact ih e h

theorem pin_dependencies_events (rust : RustVersion) (env : TaskEnv) :
    ∀ e ∈ (pin_dependencies rust env).1,
      isPinEvent e = true ∧ isExit e = false ∧ isTestEvent e = false := by
  intro e he
  cases hg : env.genLockOk
  · simp [pin_dependencies, hg] at he
    subst he
    exact ⟨rfl, rfl, rfl⟩
  · simp only [pin_dependencies, hg, if_true] at he
    rcases List.mem_cons.mp he with rfl | h
    · exact ⟨rfl, rfl, rfl⟩
    · rcases pinEvents_shape rust env.pinOk rust.requires_pinning e h with ⟨d, v, rfl⟩
      exact ⟨rfl, rfl, rfl⟩

theorem pinEvents_all_ok (rust : RustVersion) (ok : VersionPin → Bool) :
    ∀ pins, (∀ p ∈ pins, ok p = true) →
      pinEvents rust ok pins =
        (pins.map (fun p => Event.extPinDep rust.name p.dependency p.version),
         true) := by
  intro pins
  induction pins with
  | nil => intro _; rfl
  | cons pin rest ih =>
    intro h
    have h1 : ok pin = true := h pin (List.mem_cons_self pin rest)
    have h2 := ih (fun p hp => h p (List.mem_cons_of_mem pin hp))
    simp [pinEvents, h1, h2]

theorem pinEvents_fail (rust : RustVersion) (ok : VersionPin → Bool) :
    ∀ pins, (∃ p ∈ pins, ok p = false) → (pinEvents rust ok pins).2 = false := by
  intro pins
  induction pins with
  | nil => rintro ⟨p, hp, _⟩; cases hp
  | cons pin rest ih =>
    rintro ⟨p, hp, hpf⟩
    cases hok : ok pin
    · simp [pinEvents, hok]
    · rcases List.mem_cons.mp hp with rfl | hmem
      · rw [hok] at hpf; cases hpf
      · simp [pinEvents, hok, ih ⟨p, hmem, hpf⟩]

theorem pin_dependencies_head (rust : RustVersion) (env : TaskEnv) :
    ∃ tl, (pin_dependencies rust env).1 =
      Event.extGenLockfile rust.name :: tl := by
  cases hg : env.genLockOk <;> simp [pin_dependencies, hg]

theorem test_trace_no_exit (cfg : Config) (rust : RustVersion)
    (fss : List (List Feature)) (env : TaskEnv) :
    ∀ e ∈ (test_rust_version cfg rust fss env).1, isExit e = false := by
  intro e he
  cases hc : env.copyOk
  · simp [test_rust_version, hc] at he
    rcases he with rfl | rfl | rfl <;> rfl
  · cases hf : fileRemove env.lockExists env.removeOk
    · simp [test_rust_version, hc, hf] at he
      rcases he with rfl | rfl | rfl | rfl <;> rfl
    · cases hp : rust.requires_pinning.isEmpty
      · cases hpr : (pin_dependencies rust env).2
        · simp [test_rust_version, hc, hf, hp, hpr] at he
          rcases he with rfl | rfl | rfl | rfl | h
          · rfl
          · rfl
          · rfl
          · rfl
          · exact (pin_dependencies_events rust env e h).2.1
        · simp [test_rust_version, hc, hf, hp, hpr] at he
          rcases he with rfl | rfl | rfl | rfl | h | h
          · rfl
          · rfl
          · rfl
          · rfl
          · exact (pin_dependencies_events rust env e h).2.1
          · exact (runTests_benign rust env fss e h).1
      · simp [test_rust_version, hc, hf, hp] at he
        rcases he with rfl | rfl | rfl | rfl | h
        · rfl
        · rfl
        · rfl
        · rfl
        · exact (runTests_benign rust env fss e h).1

/-- C5: the run executor captures both output streams; a zero exit reports
success with no output dump, a non-zero exit reports failure and surfaces
both captured streams; every feature combination is run in sequence
regardless of outcomes (`runTests` is the concatenation over all
combinations), the trace never exits the process, and the task's
completion flag is unaffected by test outcomes (so the final process exit
status is too). -/
theorem run_test_reporting :
    ∀ (cfg : Config) (rust : RustVersion) (fss : List (List Feature))
      (env : TaskEnv),
      (runTests rust env fss =
        fss.flatMap (fun fs => run_test rust fs (env.testResult fs)))
      ∧ (∀ fs res, res.success = true →
          run_test rust fs res =
            [Event.extRunTest rust.name (featureStr fs),
             Event.reportSuccess rust.name (featureStr fs)])
      ∧ (∀ fs res, res.success = false →
          run_test rust fs res =
            [Event.extRunTest rust.name (featureStr fs),
             Event.reportFailure rust.name (featureStr fs) res.stdout res.stderr])
      ∧ (∀ e ∈ (test_rust_version cfg rust fss env).1, isExit e = false)
      ∧ (∀ f, (test_rust_version cfg rust fss { env with testResult := f }).2 =
          (test_rust_version cfg rust fss env).2) := by
  intro cfg rust fss env
  refine ⟨runTests_flatMap rust env fss, ?_, ?_, test_trace_no_exit cfg rust fss env, ?_⟩
  · intro fs res h
    simp [run_test, h]
  · intro fs res h
    simp [run_test, h]
  · intro f
    rw [test_flag_eq, test_flag_eq]
    rfl

/-- Witness for C5: a failing test run reports failure with both captured
streams, and that report does not exit the process. -/
theorem run_test_reporting_witness :
    run_test rust140 [featA] ⟨false, "boom", "trace"⟩ =
      [Event.extRunTest "1.40.0" "A",
       Event.reportFailure "1.40.0" "A" "boom" "trace"]
    ∧ isExit (Event.reportFailure "1.40.0" "A" "boom" "trace") = false := by
  constructor
  · exact (run_test_reporting scenarioCfg rust140 [[featA]] envTestFail).2.2.1
      [featA] ⟨false, "boom", "trace"⟩ rfl
  · exact (run_test_reporting scenarioCfg rust140 [[featA]] envTestFail).2.2.2.1
      (Event.reportFailure "1.40.0" "A" "boom" "trace") (by decide)

/-- C6: the dependency pinner is invoked iff the toolchain declares at
least one pin (no pinning event otherwise; the lock-file regeneration
command directly after workspace setup otherwise); when invoked it first
regenerates the lock file and then applies each pin in declared order, and
any step whose exit status is not success is fatal for that toolchain's
task — the task's flag is cleared and no test is ever run. -/
theorem pin_dependencies_spec :
    ∀ (cfg : Config) (rust : RustVersion) (fss : List (List Feature))
      (env : TaskEnv),
      (rust.requires_pinning = [] →
        ∀ e ∈ (test_rust_version cfg rust fss env).1, isPinEvent e = false)
      ∧ (rust.requires_pinning ≠ [] → env.copyOk = true →
          fileRemove env.lockExists env.removeOk = true →
          (test_rust_version cfg rust fss env).1.take 5 =
            [Event.createTempDir env.tmpPath, Event.registerPath env.tmpPath,
             Event.copyProject cfg.repo env.tmpPath,
             Event.removeLockfile
               (env.tmpPath ++ "/" ++ lastComponent cfg.repo ++ "/Cargo.lock"),
             Event.extGenLockfile rust.name])
      ∧ (env.genLockOk = true → (∀ p ∈ rust.requires_pinning, env.pinOk p = true) →
          pin_dependencies rust env =
            (Event.extGenLockfile rust.name ::
              rust.requires_pinning.map
                (fun p => Event.extPinDep rust.name p.dependency p.version),
             true))
      ∧ ((env.genLockOk = false ∨ ∃ p ∈ rust.requires_pinning, env.pinOk p = false) →
          (pin_dependencies rust env).2 = false)
      ∧ ((pin_dependencies rust env).2 = false → rust.requires_pinning ≠ [] →
          env.copyOk = true → fileRemove env.lockExists env.removeOk = true →
          (test_rust_version cfg rust fss env).2 = false ∧
            ∀ e ∈ (test_rust_version cfg rust fss env).1, isTestEvent e = false) := by
  intro cfg rust fss env
  refine ⟨?_, ?_, ?_, ?_, ?_⟩
  · intro hp e he
    have hempty : rust.requires_pinning.isEmpty = true := by simp [hp]
    cases hc : env.copyOk
    · simp [test_rust_version, hc] at he
      rcases he with rfl | rfl | rfl <;> rfl
    · cases hf : fileRemove env.lockExists env.removeOk
      · simp [test_rust_version, hc, hf] at he
        rcases he with rfl | rfl | rfl | rfl <;> rfl
      · simp [test_rust_version, hc, hf, hempty] at he
        rcases he with rfl | rfl | rfl | rfl | h
        · rfl
        · rfl
        · rfl
        · rfl
        · exact (runTests_benign rust env fss e h).2
  · intro hp hc hf
    have hempty : rust.requires_pinning.isEmpty = false := by
      cases h : rust.requires_pinning with
      | nil => exact absurd h hp
      | cons a l => rfl
    rcases pin_dependencies_head rust env with ⟨tl, htl⟩
    cases hpr : (pin_dependencies rust env).2
    · simp [test_rust_version, hc, hf, hempty, hpr, htl, List.take]
    · simp [test_rust_version, hc, hf, hempty, hpr, htl, List.take]
  · intro hg hok
    simp [pin_dependencies, hg, pinEvents_all_ok rust env.pinOk rust.requires_pinning hok]
  · rintro (hg | hfailpin)
    · simp [pin_dependencies, hg]
    · cases hg : env.genLockOk
      · simp [pin_dependencies, hg]
      · simp [pin_dependencies, hg,
          pinEvents_fail rust env.pinOk rust.requires_pinning hfailpin]
  · intro hpr hp hc hf
    have hempty : rust.requires_pinning.isEmpty = false := by
      cases h : rust.requires_pinning with
      | nil => exact absurd h hp
      | cons a l => rfl
    constructor
    · simp [test_flag_eq, hc, hf, hempty, hpr]
    · intro e he
      simp [test_rust_version, hc, hf, hempty, hpr] at he
      rcases he with rfl | rfl | rfl | rfl | h
      · rfl
      · rfl
      · rfl
      · rfl
      · exact (pin_dependencies_events rust env e h).2.2

/-- Witness for C6: for a toolchain pinning `serde` to `1.0.100` with all
commands succeeding, the pinner regenerates the lock file and then applies
the pin, successfully. -/
theorem pin_dependencies_spec_witness :
    pin_dependencies rustPinned envGood =
      (Event.extGenLockfile "1.36.0" ::
        [Event.extPinDep "1.36.0" "serde" ⟨1, 0, 100, [], []⟩], true) :=
  (pin_dependencies_spec scenarioCfg rustPinned [[]] envGood).2.2.1
    rfl (by decide)

/-- C8 fails as stated: with two toolchains, a copy failure in the
`1.40.0` task (its flag is cleared while the sibling `stable` task by
itself would complete) panics the main task — the toolchain futures are
polled inside `main` by `for_each_concurrent`, not spawned — so the whole
run aborts (`mainRuns = none`) and the configured fuzz phase never runs. -/
theorem copy_failure_aborts_run_counterexample :
    (test_rust_version cfgTwo rust140 [[], [featA]] (envOfTwo rust140)).2 = false
    ∧ (test_rust_version cfgTwo rustStable [[], [featA]] (envOfTwo rustStable)).2 = true
    ∧ cfgTwo.fuzzing.isSome = true
    ∧ mainRuns cfgTwo stable160 envOfTwo = none := by
  refine ⟨rfl, rfl, rfl, ?_⟩
  decide

/-- C8 (amended): a workspace materialization (copy) failure panics that
toolchain's task, and because toolchain tasks are futures polled within the
main task, any panicking task aborts the entire run: `mainRuns` ends in a
panic and the fuzz phase is skipped. -/
theorem copy_failure_aborts_run :
    ∀ (cfg : Config) (stable : Version) (envOf : RustVersion → TaskEnv)
      (m : List (RustVersion × List (List Feature)))
      (rust : RustVersion) (fss : List (List Feature)) (env : TaskEnv),
      (env.copyOk = false → (test_rust_version cfg rust fss env).2 = false)
      ∧ (gen_test_matrix cfg stable = some m →
          (∃ e ∈ m, (test_rust_version cfg e.1 e.2 (envOf e.1)).2 = false) →
          mainRuns cfg stable envOf = none) := by
  intro cfg stable envOf m rust fss env
  constructor
  · intro hc
    simp [test_flag_eq, hc]
  · rintro hm ⟨e, he, hf⟩
    have hany : m.any (fun e => !(test_rust_version cfg e.1 e.2 (envOf e.1)).2) = true :=
      List.any_eq_true.mpr ⟨e, he, by simp [hf]⟩
    simp [mainRuns, hm, hany]

/-- Witness for C8 (amended): the concrete two-toolchain run with one
failing copy aborts before fuzzing. -/
theorem copy_failure_aborts_run_witness :
    mainRuns cfgTwo stable160 envOfTwo = none :=
  (copy_failure_aborts_run cfgTwo stable160 envOfTwo
      [(rust140, [[], [featA]]), (rustStable, [[], [featA]])]
      rust140 [[], [featA]] (envOfTwo rust140)).2
    (by decide)
    ⟨(rust140, [[], [featA]]), by decide, by decide⟩

/-- C9 fails as stated: with the configured concurrency limit `par = 0`
(which the `futures` crate interprets as "no limit") and a single declared
toolchain, the scheduler reaches a state with one task running, exceeding
the configured limit. -/
theorem concurrency_bound_counterexample :
    SchedReachable cfgParZero.par ⟨cfgParZero.rust.length, 0, 0⟩ ⟨0, 1, 0⟩
    ∧ ¬((⟨0, 1, 0⟩ : SchedState).running ≤ cfgParZero.par) := by
  constructor
  · exact SchedReachable.tail SchedReachable.refl
      (SchedStep.start ⟨1, 0, 0⟩ (by decide) (Or.inr rfl))
  · decide

/-- One scheduler step preserves the concurrency bound when the limit is
at least 1. -/
theorem sched_step_bound (par : Nat) (hpar : 1 ≤ par) (s s' : SchedState)
    (hs : s.running ≤ par) (hstep : SchedStep par s s') :
    s'.running ≤ par := by
  cases hstep with
  | start hp hlim =>
    show s.running + 1 ≤ par
    rcases hlim with h1 | h1 <;> omega
  | finish hr =>
    show s.running - 1 ≤ par
    omega

/-- C9 (amended): for every configuration with `cfg.par ≥ 1`, every state
the `for_each_concurrent` scheduler can reach from the initial state has at
most `cfg.par` toolchain tasks running simultaneously (a limit of zero is
instead treated as no limit by the `futures` crate). -/
theorem concurrency_bound :
    ∀ (cfg : Config) (n : Nat) (s : SchedState),
      1 ≤ cfg.par → SchedReachable cfg.par ⟨n, 0, 0⟩ s →
        s.running ≤ cfg.par := by
  intro cfg n s hpar h
  induction h with
  | refl => exact Nat.zero_le _
  | tail hr hstep ih => exact sched_step_bound cfg.par hpar _ _ ih hstep

/-- Witness for C9 (amended): with 3 declared toolchains and `par = 2`,
the state reached after starting two tasks has 2 running, within the
bound. -/
theorem concurrency_bound_witness :
    (⟨1, 2, 0⟩ : SchedState).running ≤ cfgThree.par :=
  concurrency_bound cfgThree 3 ⟨1, 2, 0⟩ (by decide)
    (SchedReachable.tail
      (SchedReachable.tail SchedReachable.refl
        (SchedStep.start ⟨3, 0, 0⟩ (by decide) (Or.inl (by decide))))
      (SchedStep.start ⟨2, 1, 0⟩ (by decide) (Or.inl (by decide))))

/-- C10 fails as stated: in a task whose project copy contains no
`Cargo.lock`, the unconditional unwrapped removal succeeds as a no-op
(`fs_extra::file::remove` returns `Ok` for a missing path), so the task
does not panic and its tests do run. -/
theorem lockfile_removal_counterexample :
    (test_rust_version scenarioCfg rust140 [[]] envNoLock).2 = true
    ∧ Event.extRunTest "1.40.0" ""
        ∈ (test_rust_version scenarioCfg rust140 [[]] envNoLock).1 := by
  constructor
  · rfl
  · decide

/-- C10 (amended): the `Cargo.lock` removal is unconditional and its result
unwrapped, but removing a missing file is a successful no-op, so a task
whose copy lacks `Cargo.lock` proceeds normally (its fate depends only on
pinning); the unwrap panics — before any pinning or test — exactly when an
existing lock file fails to be removed. -/
theorem lockfile_removal_spec :
    ∀ (cfg : Config) (rust : RustVersion) (fss : List (List Feature))
      (env : TaskEnv),
      (env.lockExists = false → fileRemove env.lockExists env.removeOk = true)
      ∧ (env.lockExists = false → env.copyOk = true →
          (test_rust_version cfg rust fss env).2 =
            (rust.requires_pinning.isEmpty || (pin_dependencies rust env).2))
      ∧ (env.lockExists = true → env.removeOk = false → env.copyOk = true →
          (test_rust_version cfg rust fss env).2 = false
          ∧ ∀ e ∈ (test_rust_version cfg rust fss env).1,
              isPinEvent e = false ∧ isTestEvent e = false) := by
  intro cfg rust fss env
  refine ⟨?_, ?_, ?_⟩
  · intro hl
    simp [fileRemove, hl]
  · intro hl hc
    simp [test_flag_eq, hc, fileRemove, hl]
  · intro hl hr hc
    have hf : fileRemove env.lockExists env.removeOk = false := by
      simp [fileRemove, hl, hr]
    constructor
    · simp [test_flag_eq, hc, hf]
    · intro e he
      simp [test_rust_version, hc, hf] at he
      rcases he with rfl | rfl | rfl | rfl <;> exact ⟨rfl, rfl⟩

/-- Witness for C10 (amended): a task whose existing lock file cannot be
removed panics. -/
theorem lockfile_removal_spec_witness :
    (test_rust_version scenarioCfg rust140 [[]] envLockStuck).2 = false :=
  ((lockfile_removal_spec scenarioCfg rust140 [[]] envLockStuck).2.2
    rfl rfl rfl).1

end Testinator
